import Mathlib

/-!
Verification development for the reminder scheduling and delivery subsystem.

The definitions below are a shallow embedding of the TypeScript sources:
the fallback-capable ReminderScheduler class (queue-backed with in-memory
fallback), the ReminderDispatcher class, and the shared data model.
JavaScript numbers that can be NaN are modelled by an explicit sum type,
JavaScript Map and the durable job store by association lists, and the
asynchronous operations by explicit state passing with an Except result.
Wall-clock time is not modelled: the firing of an armed timer or the
completion of a due durable job is an external event represented by an
explicit operation on the scheduler state.
-/

/-- A JavaScript number restricted to the values produced by the delay
calculator: either NaN or an integer number of milliseconds. -/
inductive JsNum where
  | nan : JsNum
  | val : Int → JsNum
deriving DecidableEq, Repr

/-- JavaScript Math.max with the constant 0 as the second argument:
Math.max returns NaN whenever one of its arguments is NaN. -/
def js_max_zero : JsNum → JsNum
  | JsNum.nan => JsNum.nan
  | JsNum.val n => JsNum.val (max n 0)

/-- Subtraction of a plain integer from a JavaScript number: NaN is absorbing. -/
def js_sub : JsNum → Int → JsNum
  | JsNum.nan, _ => JsNum.nan
  | JsNum.val a, b => JsNum.val (a - b)

/-- Model of new Date(s).getTime(): a string that parses to a point in time
yields its epoch milliseconds, a malformed string yields NaN. -/
def date_get_time (parsed : Option Int) : JsNum :=
  match parsed with
  | none => JsNum.nan
  | some t => JsNum.val t

/-- Embedding of ReminderScheduler.calculate_delay_ms: the trigger time is
obtained by parsing the ISO string with the ambient date parser, the current
time is subtracted and the result is clamped with Math.max against 0. The
date parser of the JavaScript runtime is passed explicitly. -/
def calculate_delay_ms (js_date_parse : String → Option Int) (now : Int)
    (reminder_time_iso : String) : JsNum :=
  js_max_zero (js_sub (date_get_time (js_date_parse reminder_time_iso)) now)

/-- Embedding of the TaskPayload record of the shared package. -/
structure TaskPayload where
  task_id : String
  user_id : String
  title : String
  due_at_iso : Option String
  priority : Option String
  category : Option String
  status : String
  reminder_channel : String
  created_at_iso : String
  updated_at_iso : String
deriving DecidableEq, Repr

/-- Embedding of the ReminderRequest record of the shared package. -/
structure ReminderRequest where
  task : TaskPayload
  reminder_time_iso : String
deriving DecidableEq, Repr

/-- The hay string contains the needle string as a contiguous substring. -/
abbrev str_contains (hay needle : String) : Prop :=
  needle.data <:+: hay.data

/-- Embedding of ReminderDispatcher.build_message_text. The conditional on
due_at_iso is JavaScript truthiness: both an undefined and an empty due
string produce an empty suffix. The toLocaleString rendering of the runtime
is passed explicitly. -/
def build_message_text (to_locale_string : String → String)
    (closing_phrase : String) (t : TaskPayload) : String :=
  let due_suffix :=
    match t.due_at_iso with
    | none => ""
    | some s => if s = "" then "" else " (due " ++ to_locale_string s ++ ")"
  "Reminder: " ++ t.title ++ due_suffix ++ ". " ++ closing_phrase

/-- The due suffix exactly as the specification words it: empty when the
task has no due timestamp, otherwise the formatted due time in parentheses. -/
def spec_due_suffix (to_locale_string : String → String) (t : TaskPayload) : String :=
  match t.due_at_iso with
  | none => ""
  | some s => " (due " ++ to_locale_string s ++ ")"

/-- Outcome of one invocation of the HTTP client used by the dispatcher:
either a resolved response carrying a status code or a rejected promise
carrying a transport error message. -/
inductive HttpOutcome where
  | response (status : Nat) : HttpOutcome
  | transport_error (message : String) : HttpOutcome
deriving DecidableEq, Repr

/-- Errors surfaced by ReminderDispatcher.dispatch_task_reminder: the thrown
error built from a non-success HTTP status, or a propagated transport error. -/
inductive DispatchError where
  | push_failed_status (status : Nat) : DispatchError
  | transport (message : String) : DispatchError
deriving DecidableEq, Repr

/-- Response.ok of the fetch API: status in the 2xx range. -/
def response_ok (status : Nat) : Bool :=
  decide (200 ≤ status ∧ status < 300)

/-- Embedding of the LINE push payload built by
ReminderDispatcher.build_push_message_payload: the recipient field named
"to" in the JSON body, and the single text message. -/
structure PushMessagePayload where
  to_user : String
  text : String
deriving DecidableEq, Repr

/-- Embedding of ReminderDispatcher.build_push_message_payload. -/
def build_push_message_payload (to_locale_string : String → String)
    (closing_phrase : String) (t : TaskPayload) : PushMessagePayload :=
  { to_user := t.user_id
    text := build_message_text to_locale_string closing_phrase t }

/-- Embedding of ReminderDispatcher.dispatch_task_reminder. The HTTP client
is modelled as a script of outcomes consumed one per call, so the number of
push calls performed is visible as the list of sent payloads together with
the unconsumed remainder of the script. The catch block of the source only
logs and rethrows, so every error reaches the caller unmodified. -/
def dispatch_task_reminder (to_locale_string : String → String)
    (closing_phrase : String) (t : TaskPayload) (script : List HttpOutcome) :
    Except DispatchError Unit × List PushMessagePayload × List HttpOutcome :=
  match script with
  | [] => (Except.error (DispatchError.transport "script_exhausted"), [], [])
  | o :: rest =>
    let payload := build_push_message_payload to_locale_string closing_phrase t
    match o with
    | HttpOutcome.transport_error m =>
        (Except.error (DispatchError.transport m), [payload], rest)
    | HttpOutcome.response st =>
        if response_ok st then (Except.ok (), [payload], rest)
        else (Except.error (DispatchError.push_failed_status st), [payload], rest)

/-- Lookup in an association table keyed by task identifier, as Map.get and
as BullMQ Queue.getJob with a custom job identifier. -/
def table_get {α : Type} : List (String × α) → String → Option α
  | [], _ => none
  | e :: rest, k => if e.1 = k then some e.2 else table_get rest k

/-- Removal from an association table, as Map.delete and as Job.remove. -/
def table_delete {α : Type} : List (String × α) → String → List (String × α)
  | [], _ => []
  | e :: rest, k =>
      if e.1 = k then table_delete rest k else e :: table_delete rest k

/-- Insert or replace in an association table, as Map.set. -/
def table_set {α : Type} : List (String × α) → String → α → List (String × α)
  | [], k, v => [(k, v)]
  | e :: rest, k, v =>
      if e.1 = k then (k, v) :: rest else e :: table_set rest k v

/-- Number of entries stored under a key. -/
def count_key {α : Type} : List (String × α) → String → Nat
  | [], _ => 0
  | e :: rest, k => (if e.1 = k then 1 else 0) + count_key rest k

/-- BullMQ Queue.add with a custom job identifier: when a job with the same
identifier already exists the add is ignored, otherwise the job is appended. -/
def queue_add (jobs : List (String × ReminderRequest)) (k : String)
    (v : ReminderRequest) : List (String × ReminderRequest) :=
  match table_get jobs k with
  | some _ => jobs
  | none => jobs ++ [(k, v)]

/-- The two values of the scheduler_mode field. -/
inductive SchedulerMode where
  | bullmq : SchedulerMode
  | in_memory : SchedulerMode
deriving DecidableEq, Repr

/-- Errors thrown by the scheduler operations. -/
inductive SchedulerError where
  | construction_failed : SchedulerError
  | initialization_failed : SchedulerError
  | queue_not_initialized : SchedulerError
deriving DecidableEq, Repr

/-- The mutable fields of a ReminderScheduler instance together with the
contents of the durable job store it talks to. queue_present and
worker_present record whether the queue and worker fields hold a value.
dispatch_log is the observable trace of dispatcher invocations performed by
process_job. -/
structure SchedulerState where
  queue_name : String
  scheduler_mode : SchedulerMode
  initialized : Bool
  enable_offline_fallback : Bool
  queue_present : Bool
  worker_present : Bool
  active_timers : List (String × ReminderRequest)
  queue_jobs : List (String × ReminderRequest)
  dispatch_log : List String
deriving DecidableEq, Repr

/-- The constructor dependencies that influence scheduler state, with the
optional fields of the source interface. -/
structure SchedulerDependencies where
  queue_name : Option String
  enable_offline_fallback : Option Bool
  force_in_memory_mode : Option Bool
deriving DecidableEq, Repr

/-- Embedding of the ReminderScheduler constructor. construction_ok models
whether building the BullMQ Queue and Worker objects throws; on a throw
with offline fallback enabled both fields are cleared and the mode switches
to in-memory, otherwise the throw propagates. -/
def mk_scheduler (deps : SchedulerDependencies) (construction_ok : Bool) :
    Except SchedulerError SchedulerState :=
  let qn := deps.queue_name.getD "task_reminders"
  let eof := deps.enable_offline_fallback.getD false
  let mode0 := if deps.force_in_memory_mode.getD false
    then SchedulerMode.in_memory else SchedulerMode.bullmq
  let base : SchedulerState :=
    { queue_name := qn
      scheduler_mode := mode0
      initialized := false
      enable_offline_fallback := eof
      queue_present := false
      worker_present := false
      active_timers := []
      queue_jobs := []
      dispatch_log := [] }
  match mode0 with
  | SchedulerMode.in_memory => Except.ok base
  | SchedulerMode.bullmq =>
    if construction_ok then
      Except.ok { base with queue_present := true, worker_present := true }
    else if eof then
      Except.ok { base with scheduler_mode := SchedulerMode.in_memory }
    else Except.error SchedulerError.construction_failed

/-- Embedding of ReminderScheduler.switch_to_in_memory_mode: close failures
are caught and only logged, the queue and worker fields are cleared, the
mode becomes in-memory and the timer table is cleared. -/
def switch_to_in_memory_mode (s : SchedulerState) : SchedulerState :=
  { s with
    worker_present := false
    queue_present := false
    scheduler_mode := SchedulerMode.in_memory
    active_timers := [] }

/-- Embedding of ReminderScheduler.initialize. ready_ok models whether the
awaited waitUntilReady promises resolve; they can only reject when at least
one durable resource exists. -/
def initialize_scheduler (ready_ok : Bool) (s : SchedulerState) :
    Except SchedulerError SchedulerState :=
  if s.initialized then Except.ok s
  else if s.scheduler_mode = SchedulerMode.in_memory then
    Except.ok { s with initialized := true }
  else if (s.queue_present || s.worker_present) && !ready_ok then
    if s.enable_offline_fallback then
      Except.ok { switch_to_in_memory_mode s with initialized := true }
    else Except.error SchedulerError.initialization_failed
  else Except.ok { s with initialized := true }

/-- Embedding of ReminderScheduler.cancel_reminder: in-memory mode consults
the timer table, durable mode requires the queue field and consults the job
store; an absent entry reports false without mutation. -/
def cancel_reminder (s : SchedulerState) (task_id : String) :
    Except SchedulerError (Bool × SchedulerState) :=
  match s.scheduler_mode with
  | SchedulerMode.in_memory =>
    match table_get s.active_timers task_id with
    | none => Except.ok (false, s)
    | some _ =>
        Except.ok (true,
          { s with active_timers := table_delete s.active_timers task_id })
  | SchedulerMode.bullmq =>
    if s.queue_present then
      match table_get s.queue_jobs task_id with
      | none => Except.ok (false, s)
      | some _ =>
          Except.ok (true,
            { s with queue_jobs := table_delete s.queue_jobs task_id })
    else Except.error SchedulerError.queue_not_initialized

/-- Embedding of ReminderScheduler.schedule_reminder: cancel any existing
entry for the task identifier, compute the delay, then either arm a timer
(in-memory mode) or enqueue a delayed job keyed by the task identifier
(durable mode); in durable mode a missing queue field throws. The computed
delay determines only when the external firing event occurs and is not part
of the table state. -/
def schedule_reminder (s : SchedulerState) (req : ReminderRequest) :
    Except SchedulerError SchedulerState :=
  match cancel_reminder s req.task.task_id with
  | Except.error e => Except.error e
  | Except.ok (_, s1) =>
    match s1.scheduler_mode with
    | SchedulerMode.in_memory =>
        Except.ok
          { s1 with
            active_timers := table_set s1.active_timers req.task.task_id req }
    | SchedulerMode.bullmq =>
      if s1.queue_present then
        Except.ok
          { s1 with queue_jobs := queue_add s1.queue_jobs req.task.task_id req }
      else Except.error SchedulerError.queue_not_initialized

/-- Embedding of ReminderScheduler.shutdown: in-memory mode clears every
timer and empties the table, durable mode closes the queue and worker; both
reset the initialized flag. -/
def shutdown (s : SchedulerState) : SchedulerState :=
  match s.scheduler_mode with
  | SchedulerMode.in_memory => { s with active_timers := [], initialized := false }
  | SchedulerMode.bullmq => { s with initialized := false }

/-- External event: an armed in-memory timer for the task fires. The
setTimeout callback of schedule_reminder only invokes process_job, which
calls the dispatcher; the callback performs no mutation of the timer table,
so the consumed handle stays in the map. -/
def fire_timer (s : SchedulerState) (task_id : String) : SchedulerState :=
  match table_get s.active_timers task_id with
  | some _ => { s with dispatch_log := s.dispatch_log ++ [task_id] }
  | none => s

/-- External event: the worker picks up a due durable job. The job options
request auto-removal on completion and on failure, so the job leaves the
store and the dispatcher is invoked. -/
def fire_job (s : SchedulerState) (task_id : String) : SchedulerState :=
  if s.worker_present then
    match table_get s.queue_jobs task_id with
    | some _ =>
        { s with
          queue_jobs := table_delete s.queue_jobs task_id
          dispatch_log := s.dispatch_log ++ [task_id] }
    | none => s
  else s

/-- The operations that can act on a constructed scheduler. -/
inductive SchedulerOp where
  | op_initialize (ready_ok : Bool) : SchedulerOp
  | op_schedule (req : ReminderRequest) : SchedulerOp
  | op_cancel (task_id : String) : SchedulerOp
  | op_shutdown : SchedulerOp
  | op_fire_timer (task_id : String) : SchedulerOp
  | op_fire_job (task_id : String) : SchedulerOp
deriving DecidableEq, Repr

/-- One operation applied to the state. Every throwing path of the source
throws before performing any mutation, so a failed operation leaves the
state unchanged. -/
def step (s : SchedulerState) : SchedulerOp → SchedulerState
  | SchedulerOp.op_initialize r =>
    match initialize_scheduler r s with
    | Except.ok s' => s'
    | Except.error _ => s
  | SchedulerOp.op_schedule req =>
    match schedule_reminder s req with
    | Except.ok s' => s'
    | Except.error _ => s
  | SchedulerOp.op_cancel tid =>
    match cancel_reminder s tid with
    | Except.ok (_, s') => s'
    | Except.error _ => s
  | SchedulerOp.op_shutdown => shutdown s
  | SchedulerOp.op_fire_timer tid => fire_timer s tid
  | SchedulerOp.op_fire_job tid => fire_job s tid

/-- A sequence of operations applied in order. -/
def run (s : SchedulerState) (ops : List SchedulerOp) : SchedulerState :=
  ops.foldl step s

/-- Consecutive schedule_reminder calls, stopping at the first thrown error. -/
def run_schedules (s : SchedulerState) :
    List ReminderRequest → Except SchedulerError SchedulerState
  | [] => Except.ok s
  | r :: rest =>
    match schedule_reminder s r with
    | Except.error e => Except.error e
    | Except.ok s' => run_schedules s' rest

/-- Number of entries for a task identifier in the store of the current
mode: the timer table in in-memory mode, the job store in durable mode. -/
def entry_count (s : SchedulerState) (k : String) : Nat :=
  if s.scheduler_mode = SchedulerMode.in_memory then count_key s.active_timers k
  else count_key s.queue_jobs k

/-- Whenever the mode is bullmq, the queue and worker fields hold a value. -/
def mode_resources_defined (s : SchedulerState) : Prop :=
  s.scheduler_mode = SchedulerMode.bullmq →
    s.queue_present = true ∧ s.worker_present = true

/-- A concrete valid task, mirroring the fixture of the dispatcher test. -/
def sample_task : TaskPayload :=
  { task_id := "t1"
    user_id := "u1"
    title := "Review pull request"
    due_at_iso := some "2025-10-01T12:00:00.000Z"
    priority := some "normal"
    category := none
    status := "pending"
    reminder_channel := "line"
    created_at_iso := "2025-09-17T00:00:00.000Z"
    updated_at_iso := "2025-09-17T00:00:00.000Z" }

/-- A concrete reminder request for the sample task. -/
def sample_request : ReminderRequest :=
  { task := sample_task
    reminder_time_iso := "2025-10-01T12:00:00.000Z" }

/-- The sample task without its due timestamp. -/
def sample_task_no_due : TaskPayload :=
  { sample_task with due_at_iso := none }

/-- A concrete task whose due timestamp is the empty string: the empty
string is falsy in JavaScript, so the source suppresses the due suffix for
it. -/
def empty_due_task : TaskPayload :=
  { task_id := "t8"
    user_id := "u8"
    title := "File taxes"
    due_at_iso := some ""
    priority := none
    category := none
    status := "pending"
    reminder_channel := "line"
    created_at_iso := "2025-01-01T00:00:00.000Z"
    updated_at_iso := "2025-01-01T00:00:00.000Z" }

/-- A concrete initialized in-memory scheduler state with an empty table. -/
def sample_mem_state : SchedulerState :=
  { queue_name := "task_reminders"
    scheduler_mode := SchedulerMode.in_memory
    initialized := true
    enable_offline_fallback := false
    queue_present := false
    worker_present := false
    active_timers := []
    queue_jobs := []
    dispatch_log := [] }

/-- A concrete durable-mode scheduler state as produced by a successful
construction with default dependencies. -/
def sample_bullmq_state : SchedulerState :=
  { queue_name := "task_reminders"
    scheduler_mode := SchedulerMode.bullmq
    initialized := false
    enable_offline_fallback := false
    queue_present := true
    worker_present := true
    active_timers := []
    queue_jobs := []
    dispatch_log := [] }

/-- A durable-mode state awaiting its first initialization, with the offline
fallback flag enabled. -/
def sample_bullmq_fallback_state : SchedulerState :=
  { sample_bullmq_state with enable_offline_fallback := true }

theorem table_get_delete {α : Type} (tbl : List (String × α)) (k : String) :
    table_get (table_delete tbl k) k = none := by
  induction tbl with
  | nil => rfl
  | cons e rest ih =>
    by_cases h : e.1 = k
    · simp [table_delete, h, ih]
    · simp [table_delete, table_get, h, ih]

theorem count_key_append {α : Type} (a b : List (String × α)) (k : String) :
    count_key (a ++ b) k = count_key a k + count_key b k := by
  induction a with
  | nil => simp [count_key]
  | cons e rest ih =>
    by_cases h : e.1 = k
    · simp [count_key, h, ih]
      omega
    · simp [count_key, h, ih]

theorem table_get_none_iff_count_zero {α : Type} (tbl : List (String × α))
    (k : String) : table_get tbl k = none ↔ count_key tbl k = 0 := by
  induction tbl with
  | nil => simp [table_get, count_key]
  | cons e rest ih =>
    by_cases h : e.1 = k
    · simp [table_get, count_key, h]
    · simp [table_get, count_key, h, ih]

theorem count_key_set_of_get_none {α : Type} (tbl : List (String × α))
    (k : String) (v : α) (h : table_get tbl k = none) :
    count_key (table_set tbl k v) k = 1 := by
  induction tbl with
  | nil => simp [table_set, count_key]
  | cons e rest ih =>
    by_cases he : e.1 = k
    · rw [table_get, if_pos he] at h
      cases h
    · rw [table_get, if_neg he] at h
      simp [table_set, count_key, he, ih h]

theorem count_key_delete {α : Type} (tbl : List (String × α)) (k : String) :
    count_key (table_delete tbl k) k = 0 :=
  (table_get_none_iff_count_zero _ _).mp (table_get_delete tbl k)

theorem count_key_delete_ne {α : Type} (tbl : List (String × α)) (k k' : String)
    (h : k' ≠ k) : count_key (table_delete tbl k) k' = count_key tbl k' := by
  induction tbl with
  | nil => rfl
  | cons e rest ih =>
    by_cases he : e.1 = k
    · have hne : ¬ k = k' := fun hh => h hh.symm
      simp [table_delete, he, count_key, hne, ih]
    · simp [table_delete, he, count_key, ih]

theorem count_key_queue_add_of_get_none (jobs : List (String × ReminderRequest))
    (k : String) (v : ReminderRequest) (h : table_get jobs k = none) :
    count_key (queue_add jobs k v) k = 1 := by
  rw [queue_add, h, count_key_append]
  have h0 := (table_get_none_iff_count_zero jobs k).mp h
  simp [h0, count_key]

/-- C4 helper and amended statement: a trigger timestamp string that does
not parse yields NaN from the delay computation, not a thrown rejection. -/
theorem c4_malformed_delay_is_nan (js_date_parse : String → Option Int)
    (now : Int) (s : String) (h : js_date_parse s = none) :
    calculate_delay_ms js_date_parse now s = JsNum.nan := by
  simp [calculate_delay_ms, date_get_time, js_sub, js_max_zero, h]

theorem cancel_reminder_clears (s : SchedulerState) (tid : String)
    (hinv : mode_resources_defined s) :
    ∃ b s', cancel_reminder s tid = Except.ok (b, s') ∧
      s'.scheduler_mode = s.scheduler_mode ∧
      s'.queue_present = s.queue_present ∧
      s'.worker_present = s.worker_present ∧
      entry_count s' tid = 0 := by
  cases hm : s.scheduler_mode with
  | in_memory =>
    cases hg : table_get s.active_timers tid with
    | none =>
      refine ⟨false, s, by simp [cancel_reminder, hm, hg], hm, rfl, rfl, ?_⟩
      simp [entry_count, hm, (table_get_none_iff_count_zero _ _).mp hg]
    | some v =>
      refine ⟨true, { s with active_timers := table_delete s.active_timers tid },
        by simp [cancel_reminder, hm, hg], by simp [hm], rfl, rfl, ?_⟩
      simp [entry_count, hm, count_key_delete]
  | bullmq =>
    have hq := (hinv hm).1
    cases hg : table_get s.queue_jobs tid with
    | none =>
      refine ⟨false, s, by simp [cancel_reminder, hm, hq, hg], hm, rfl, rfl, ?_⟩
      simp [entry_count, hm, (table_get_none_iff_count_zero _ _).mp hg]
    | some v =>
      refine ⟨true, { s with queue_jobs := table_delete s.queue_jobs tid },
        by simp [cancel_reminder, hm, hq, hg], by simp [hm], rfl, rfl, ?_⟩
      simp [entry_count, hm, count_key_delete]

theorem schedule_reminder_ok (s : SchedulerState) (req : ReminderRequest)
    (hinv : mode_resources_defined s) :
    ∃ s', schedule_reminder s req = Except.ok s' ∧
      s'.scheduler_mode = s.scheduler_mode ∧
      s'.queue_present = s.queue_present ∧
      s'.worker_present = s.worker_present ∧
      entry_count s' req.task.task_id = 1 := by
  obtain ⟨b, s1, hc, hmode, hqp, hwp, hcount⟩ :=
    cancel_reminder_clears s req.task.task_id hinv
  cases hm : s.scheduler_mode with
  | in_memory =>
    have hm1 : s1.scheduler_mode = SchedulerMode.in_memory := by rw [hmode, hm]
    have hget : table_get s1.active_timers req.task.task_id = none := by
      have hz := hcount
      simp [entry_count, hm1] at hz
      exact (table_get_none_iff_count_zero _ _).mpr hz
    refine ⟨{ s1 with
        active_timers := table_set s1.active_timers req.task.task_id req },
      ?_, ?_, ?_, ?_, ?_⟩
    · simp [schedule_reminder, hc, hm1]
    · simp [hm1]
    · simp [hqp]
    · simp [hwp]
    · simp [entry_count, hm1, count_key_set_of_get_none _ _ _ hget]
  | bullmq =>
    have hm1 : s1.scheduler_mode = SchedulerMode.bullmq := by rw [hmode, hm]
    have hq1 : s1.queue_present = true := by
      rw [hqp]
      exact (hinv hm).1
    have hget : table_get s1.queue_jobs req.task.task_id = none := by
      have hz := hcount
      simp [entry_count, hm1] at hz
      exact (table_get_none_iff_count_zero _ _).mpr hz
    refine ⟨{ s1 with
        queue_jobs := queue_add s1.queue_jobs req.task.task_id req },
      ?_, ?_, ?_, ?_, ?_⟩
    · simp [schedule_reminder, hc, hm1, hq1]
    · simp [hm1]
    · simp [hqp]
    · simp [hwp]
    · simp [entry_count, hm1, count_key_queue_add_of_get_none _ _ _ hget]

theorem cancel_reminder_absent (s : SchedulerState) (tid : String)
    (hinv : mode_resources_defined s) (hc : entry_count s tid = 0) :
    cancel_reminder s tid = Except.ok (false, s) := by
  cases hm : s.scheduler_mode with
  | in_memory =>
    have hz : count_key s.active_timers tid = 0 := by
      simpa [entry_count, hm] using hc
    have hg : table_get s.active_timers tid = none :=
      (table_get_none_iff_count_zero _ _).mpr hz
    simp [cancel_reminder, hm, hg]
  | bullmq =>
    have hq := (hinv hm).1
    have hz : count_key s.queue_jobs tid = 0 := by
      simpa [entry_count, hm] using hc
    have hg : table_get s.queue_jobs tid = none :=
      (table_get_none_iff_count_zero _ _).mpr hz
    simp [cancel_reminder, hm, hq, hg]

theorem cancel_reminder_present (s : SchedulerState) (tid : String)
    (hinv : mode_resources_defined s) (hc : entry_count s tid ≠ 0) :
    ∃ s', cancel_reminder s tid = Except.ok (true, s') ∧
      s'.scheduler_mode = s.scheduler_mode ∧
      s'.queue_present = s.queue_present ∧
      s'.worker_present = s.worker_present ∧
      entry_count s' tid = 0 ∧
      (∀ k, k ≠ tid → entry_count s' k = entry_count s k) := by
  cases hm : s.scheduler_mode with
  | in_memory =>
    have hz : count_key s.active_timers tid ≠ 0 := by
      intro h0
      exact hc (by simpa [entry_count, hm] using h0)
    cases hg : table_get s.active_timers tid with
    | none =>
      exact absurd ((table_get_none_iff_count_zero _ _).mp hg) hz
    | some v =>
      refine ⟨{ s with active_timers := table_delete s.active_timers tid },
        by simp [cancel_reminder, hm, hg], by simp [hm], rfl, rfl, ?_, ?_⟩
      · simp [entry_count, hm, count_key_delete]
      · intro k hk
        simp [entry_count, hm, count_key_delete_ne _ _ _ hk]
  | bullmq =>
    have hq := (hinv hm).1
    have hz : count_key s.queue_jobs tid ≠ 0 := by
      intro h0
      exact hc (by simpa [entry_count, hm] using h0)
    cases hg : table_get s.queue_jobs tid with
    | none =>
      exact absurd ((table_get_none_iff_count_zero _ _).mp hg) hz
    | some v =>
      refine ⟨{ s with queue_jobs := table_delete s.queue_jobs tid },
        by simp [cancel_reminder, hm, hq, hg], by simp [hm], rfl, rfl, ?_, ?_⟩
      · simp [entry_count, hm, count_key_delete]
      · intro k hk
        simp [entry_count, hm, count_key_delete_ne _ _ _ hk]

theorem run_schedules_post (tid : String) :
    ∀ (reqs : List ReminderRequest) (s : SchedulerState),
      mode_resources_defined s → reqs ≠ [] →
      (∀ r ∈ reqs, r.task.task_id = tid) →
      ∃ s1, run_schedules s reqs = Except.ok s1 ∧
        mode_resources_defined s1 ∧
        s1.scheduler_mode = s.scheduler_mode ∧
        entry_count s1 tid = 1 := by
  intro reqs
  induction reqs with
  | nil => exact fun s _ hne _ => absurd rfl hne
  | cons r rest ih =>
    intro s hinv _ hall
    obtain ⟨s', hs', hmode, hqp, hwp, hcount⟩ := schedule_reminder_ok s r hinv
    have hinv' : mode_resources_defined s' := by
      intro hb
      rw [hmode] at hb
      refine ⟨?_, ?_⟩
      · rw [hqp]
        exact (hinv hb).1
      · rw [hwp]
        exact (hinv hb).2
    have htid : r.task.task_id = tid := hall r (List.mem_cons_self r rest)
    rw [htid] at hcount
    by_cases hrest : rest = []
    · subst hrest
      refine ⟨s', ?_, hinv', hmode, hcount⟩
      simp [run_schedules, hs']
    · obtain ⟨s1, h1, hinv1, hmode1, hcount1⟩ :=
        ih s' hinv' hrest (fun x hx => hall x (List.mem_cons_of_mem r hx))
      refine ⟨s1, ?_, hinv1, hmode1.trans hmode, hcount1⟩
      simp [run_schedules, hs', h1]

theorem cancel_reminder_ok_fields (s : SchedulerState) (tid : String)
    (b : Bool) (s' : SchedulerState)
    (h : cancel_reminder s tid = Except.ok (b, s')) :
    s'.scheduler_mode = s.scheduler_mode ∧
    s'.queue_present = s.queue_present ∧
    s'.worker_present = s.worker_present ∧
    s'.enable_offline_fallback = s.enable_offline_fallback := by
  unfold cancel_reminder at h
  cases hm : s.scheduler_mode with
  | in_memory =>
    rw [hm] at h
    cases hg : table_get s.active_timers tid with
    | none =>
      simp only [hg] at h
      have hp := Except.ok.inj h
      injection hp with hb hs
      subst hs
      exact ⟨hm, rfl, rfl, rfl⟩
    | some v =>
      simp only [hg] at h
      have hp := Except.ok.inj h
      injection hp with hb hs
      rw [← hs]
      exact ⟨rfl, rfl, rfl, rfl⟩
  | bullmq =>
    rw [hm] at h
    by_cases hq : s.queue_present
    · simp only [hq, if_true] at h
      cases hg : table_get s.queue_jobs tid with
      | none =>
        simp only [hg] at h
        have hp := Except.ok.inj h
        injection hp with hb hs
        subst hs
        exact ⟨hm, rfl, rfl, rfl⟩
      | some v =>
        simp only [hg] at h
        have hp := Except.ok.inj h
        injection hp with hb hs
        rw [← hs]
        exact ⟨rfl, hq.symm, rfl, rfl⟩
    · simp only [hq] at h
      exact absurd h (by simp)

theorem schedule_reminder_ok_fields (s : SchedulerState) (req : ReminderRequest)
    (s' : SchedulerState) (h : schedule_reminder s req = Except.ok s') :
    s'.scheduler_mode = s.scheduler_mode ∧
    s'.queue_present = s.queue_present ∧
    s'.worker_present = s.worker_present ∧
    s'.enable_offline_fallback = s.enable_offline_fallback := by
  unfold schedule_reminder at h
  cases hc : cancel_reminder s req.task.task_id with
  | error e =>
    rw [hc] at h
    exact Except.noConfusion h
  | ok p =>
    obtain ⟨b, s1⟩ := p
    obtain ⟨f1, f2, f3, f4⟩ := cancel_reminder_ok_fields s req.task.task_id b s1 hc
    rw [hc] at h
    cases hm1 : s1.scheduler_mode with
    | in_memory =>
      simp only [hm1] at h
      have hs := Except.ok.inj h
      rw [← hs]
      exact ⟨hm1.symm.trans f1, f2, f3, f4⟩
    | bullmq =>
      by_cases hq : s1.queue_present
      · simp only [hm1, hq, if_true] at h
        have hs := Except.ok.inj h
        rw [← hs]
        exact ⟨hm1.symm.trans f1, hq.symm.trans f2, f3, f4⟩
      · simp only [hm1, hq] at h
        exact absurd h (by simp)

theorem initialize_scheduler_cases (r : Bool) (s s' : SchedulerState)
    (h : initialize_scheduler r s = Except.ok s') :
    s' = s ∨ s' = { s with initialized := true } ∨
      s' = { switch_to_in_memory_mode s with initialized := true } := by
  rw [initialize_scheduler] at h
  by_cases hi : s.initialized
  · rw [if_pos hi] at h
    exact Or.inl (Except.ok.inj h).symm
  · rw [if_neg hi] at h
    by_cases hm : s.scheduler_mode = SchedulerMode.in_memory
    · rw [if_pos hm] at h
      exact Or.inr (Or.inl (Except.ok.inj h).symm)
    · rw [if_neg hm] at h
      by_cases hf : ((s.queue_present || s.worker_present) && !r) = true
      · rw [if_pos hf] at h
        by_cases he : s.enable_offline_fallback
        · rw [if_pos he] at h
          exact Or.inr (Or.inr (Except.ok.inj h).symm)
        · rw [if_neg he] at h
          exact Except.noConfusion h
      · rw [if_neg hf] at h
        exact Or.inr (Or.inl (Except.ok.inj h).symm)

theorem step_fields (s : SchedulerState) (op : SchedulerOp) :
    ((step s op).scheduler_mode = s.scheduler_mode ∧
      (step s op).queue_present = s.queue_present ∧
      (step s op).worker_present = s.worker_present) ∨
    ((step s op).scheduler_mode = SchedulerMode.in_memory ∧
      (step s op).queue_present = false ∧
      (step s op).worker_present = false) := by
  cases op with
  | op_initialize r =>
    rw [step]
    cases hc : initialize_scheduler r s with
    | error e => exact Or.inl ⟨rfl, rfl, rfl⟩
    | ok s' =>
      rcases initialize_scheduler_cases r s s' hc with h | h | h
      · subst h
        exact Or.inl ⟨rfl, rfl, rfl⟩
      · subst h
        exact Or.inl ⟨rfl, rfl, rfl⟩
      · subst h
        exact Or.inr ⟨rfl, rfl, rfl⟩
  | op_schedule req =>
    rw [step]
    cases hc : schedule_reminder s req with
    | error e => exact Or.inl ⟨rfl, rfl, rfl⟩
    | ok s' =>
      obtain ⟨f1, f2, f3, _⟩ := schedule_reminder_ok_fields s req s' hc
      exact Or.inl ⟨f1, f2, f3⟩
  | op_cancel tid =>
    rw [step]
    cases hc : cancel_reminder s tid with
    | error e => exact Or.inl ⟨rfl, rfl, rfl⟩
    | ok p =>
      obtain ⟨b, s'⟩ := p
      obtain ⟨f1, f2, f3, _⟩ := cancel_reminder_ok_fields s tid b s' hc
      exact Or.inl ⟨f1, f2, f3⟩
  | op_shutdown =>
    rw [step]
    cases hm : s.scheduler_mode with
    | in_memory =>
      refine Or.inl ⟨?_, ?_, ?_⟩ <;> simp [shutdown, hm]
    | bullmq =>
      refine Or.inl ⟨?_, ?_, ?_⟩ <;> simp [shutdown, hm]
  | op_fire_timer tid =>
    rw [step]
    cases hg : table_get s.active_timers tid with
    | none =>
      refine Or.inl ⟨?_, ?_, ?_⟩ <;> simp [fire_timer, hg]
    | some v =>
      refine Or.inl ⟨?_, ?_, ?_⟩ <;> simp [fire_timer, hg]
  | op_fire_job tid =>
    rw [step]
    by_cases hw : s.worker_present
    · cases hg : table_get s.queue_jobs tid with
      | none =>
        refine Or.inl ⟨?_, ?_, ?_⟩ <;> simp [fire_job, hw, hg]
      | some v =>
        refine Or.inl ⟨?_, ?_, ?_⟩ <;> simp [fire_job, hw, hg]
    · refine Or.inl ⟨?_, ?_, ?_⟩ <;> simp [fire_job, hw]

theorem step_preserves_inv (s : SchedulerState) (op : SchedulerOp)
    (hinv : mode_resources_defined s) : mode_resources_defined (step s op) := by
  rcases step_fields s op with ⟨f1, f2, f3⟩ | ⟨f1, f2, f3⟩
  · intro hb
    rw [f1] at hb
    exact ⟨f2.trans (hinv hb).1, f3.trans (hinv hb).2⟩
  · intro hb
    rw [f1] at hb
    cases hb

theorem step_mode_one_way (s : SchedulerState) (op : SchedulerOp)
    (hm : s.scheduler_mode = SchedulerMode.in_memory) :
    (step s op).scheduler_mode = SchedulerMode.in_memory := by
  rcases step_fields s op with ⟨f1, _, _⟩ | ⟨f1, _, _⟩
  · rw [f1, hm]
  · exact f1

theorem run_preserves_inv (ops : List SchedulerOp) :
    ∀ s : SchedulerState, mode_resources_defined s →
      mode_resources_defined (run s ops) := by
  induction ops with
  | nil => exact fun s h => h
  | cons op rest ih =>
    intro s h
    exact ih (step s op) (step_preserves_inv s op h)

theorem run_preserves_in_memory (ops : List SchedulerOp) :
    ∀ s : SchedulerState, s.scheduler_mode = SchedulerMode.in_memory →
      (run s ops).scheduler_mode = SchedulerMode.in_memory := by
  induction ops with
  | nil => exact fun s h => h
  | cons op rest ih =>
    intro s h
    exact ih (step s op) (step_mode_one_way s op h)

theorem mk_scheduler_inv (deps : SchedulerDependencies) (cok : Bool)
    (s0 : SchedulerState) (h : mk_scheduler deps cok = Except.ok s0) :
    mode_resources_defined s0 := by
  rw [mk_scheduler] at h
  by_cases hf : deps.force_in_memory_mode.getD false
  · simp only [hf, if_true] at h
    intro hb
    rw [← (Except.ok.inj h)] at hb
    cases hb
  · simp only [hf, if_false] at h
    by_cases hc : cok
    · simp only [hc, if_true] at h
      intro hb
      rw [← (Except.ok.inj h)]
      exact ⟨rfl, rfl⟩
    · simp only [hc, if_false] at h
      by_cases he : deps.enable_offline_fallback.getD false
      · simp only [he, if_true] at h
        intro hb
        rw [← (Except.ok.inj h)] at hb
        cases hb
      · simp only [he, if_false] at h
        exact Except.noConfusion h

theorem pre_append_split {α : Type} :
    ∀ (c n b : List α), n <+: c ++ b →
      n <+: c ∨ ∃ k, n.take k = c ∧ n.drop k <+: b := by
  intro c
  induction c with
  | nil =>
    intro n b h
    refine Or.inr ⟨0, rfl, ?_⟩
    simpa using h
  | cons x c' ih =>
    intro n b h
    cases n with
    | nil => exact Or.inl ⟨x :: c', rfl⟩
    | cons y n' =>
      obtain ⟨t, ht⟩ := h
      rw [List.cons_append] at ht
      injection ht with h1 h2
      subst h1
      rcases ih n' b ⟨t, h2⟩ with hp | ⟨k, hk1, hk2⟩
      · obtain ⟨u, hu⟩ := hp
        exact Or.inl ⟨u, by rw [List.cons_append, hu]⟩
      · refine Or.inr ⟨k + 1, ?_, hk2⟩
        rw [List.take_succ_cons, hk1]

theorem sub_append_split {α : Type} :
    ∀ (a n b : List α), n <:+: a ++ b →
      n <:+: a ∨ n <:+: b ∨ ∃ k, 0 < k ∧ n.take k <:+ a ∧ n.drop k <+: b := by
  intro a
  induction a with
  | nil =>
    intro n b h
    exact Or.inr (Or.inl (by simpa using h))
  | cons x a' ih =>
    intro n b h
    obtain ⟨s, t, hst⟩ := h
    cases s with
    | nil =>
      have hpre : n <+: (x :: a') ++ b := ⟨t, by simpa using hst⟩
      rcases pre_append_split (x :: a') n b hpre with hp | ⟨k, hk1, hk2⟩
      · obtain ⟨u, hu⟩ := hp
        exact Or.inl ⟨[], u, by simpa using hu⟩
      · refine Or.inr (Or.inr ⟨k, ?_, ?_, hk2⟩)
        · cases k with
          | zero => exact absurd hk1 (by simp)
          | succ k' => exact Nat.succ_pos k'
        · rw [hk1]
    | cons y s' =>
      rw [List.cons_append, List.cons_append] at hst
      injection hst with h1 h2
      subst h1
      rcases ih n b ⟨s', t, h2⟩ with h | h | ⟨k, hk0, hk1, hk2⟩
      · obtain ⟨u, v, huv⟩ := h
        exact Or.inl ⟨y :: u, v, by rw [List.cons_append, List.cons_append, huv]⟩
      · exact Or.inr (Or.inl h)
      · obtain ⟨u, hu⟩ := hk1
        exact Or.inr (Or.inr ⟨k, hk0,
          ⟨y :: u, by rw [List.cons_append, hu]⟩, hk2⟩)

theorem due_marker_take_ge (m : Nat) :
    ("(due".data).take (m + 4) = "(due".data := by
  apply List.take_of_length_le
  have h4 : ("(due".data).length = 4 := rfl
  omega

theorem due_marker_cross_left (k : Nat) (hk0 : 0 < k)
    (h : ("(due".data).take k <:+ "Reminder: ".data) : False := by
  cases k with
  | zero => exact absurd hk0 (by decide)
  | succ k1 =>
    cases k1 with
    | zero => exact absurd h (by decide)
    | succ k2 =>
      cases k2 with
      | zero => exact absurd h (by decide)
      | succ k3 =>
        cases k3 with
        | zero => exact absurd h (by decide)
        | succ k4 =>
          rw [show k4 + 1 + 1 + 1 + 1 = k4 + 4 by omega, due_marker_take_ge] at h
          exact absurd h (by decide)

theorem due_marker_cross_dot (k : Nat) (hk0 : 0 < k)
    (h : ("(due".data).take k <:+ ". ".data) : False := by
  cases k with
  | zero => exact absurd hk0 (by decide)
  | succ k1 =>
    cases k1 with
    | zero => exact absurd h (by decide)
    | succ k2 =>
      cases k2 with
      | zero => exact absurd h (by decide)
      | succ k3 =>
        cases k3 with
        | zero => exact absurd h (by decide)
        | succ k4 =>
          rw [show k4 + 1 + 1 + 1 + 1 = k4 + 4 by omega, due_marker_take_ge] at h
          exact absurd h (by decide)

theorem due_marker_drop_not_pre (k : Nat) (hk0 : 0 < k) (hk4 : k < 4)
    (C : List Char) (h : ("(due".data).drop k <+: ". ".data ++ C) : False := by
  obtain ⟨t, ht⟩ := h
  cases k with
  | zero => exact absurd hk0 (by decide)
  | succ k1 =>
    cases k1 with
    | zero =>
      injection ht with hc _
      exact absurd hc (by decide)
    | succ k2 =>
      cases k2 with
      | zero =>
        injection ht with hc _
        exact absurd hc (by decide)
      | succ k3 =>
        cases k3 with
        | zero =>
          injection ht with hc _
          exact absurd hc (by decide)
        | succ k4 => exact absurd hk4 (by omega)

theorem no_due_marker_in_concat (T C : List Char)
    (hT : ¬ ("(due".data <:+: T)) (hC : ¬ ("(due".data <:+: C)) :
    ¬ ("(due".data <:+: "Reminder: ".data ++ (T ++ (". ".data ++ C))) := by
  intro h
  rcases sub_append_split _ _ _ h with h1 | h1 | ⟨k, hk0, hk1, _⟩
  · exact absurd h1 (by decide)
  · rcases sub_append_split _ _ _ h1 with h2 | h2 | ⟨k, hk0, hk1, hk2⟩
    · exact hT h2
    · rcases sub_append_split _ _ _ h2 with h3 | h3 | ⟨k, hk0, hk1, _⟩
      · exact absurd h3 (by decide)
      · exact hC h3
      · exact due_marker_cross_dot k hk0 hk1
    · by_cases hk4 : k < 4
      · exact due_marker_drop_not_pre k hk0 hk4 C hk2
      · obtain ⟨m, hm⟩ : ∃ m, k = m + 4 := ⟨k - 4, by omega⟩
        rw [hm, due_marker_take_ge] at hk1
        obtain ⟨u, hu⟩ := hk1
        exact hT ⟨u, [], by simpa using hu⟩
  · exact due_marker_cross_left k hk0 hk1

/-- C4 counterexample: at a concrete trigger timestamp string that does not
parse, the delay computation does not return zero delay as the claim states;
Math.max propagates the NaN produced by Date parsing, so the result is NaN. -/
theorem c4_counterexample_malformed_not_zero :
    calculate_delay_ms (fun _ => none) 0 "not-a-timestamp" = JsNum.nan ∧
    calculate_delay_ms (fun _ => none) 0 "not-a-timestamp" ≠ JsNum.val 0 := by
  exact ⟨rfl, by decide⟩

/-- C4 witness: the amended statement evaluated at a concrete malformed
trigger timestamp. -/
theorem c4_malformed_delay_is_nan_witness :
    calculate_delay_ms (fun _ => none) 7 "2025-13-99T99:99:99Z" = JsNum.nan :=
  c4_malformed_delay_is_nan (fun _ => none) 7 "2025-13-99T99:99:99Z" rfl

/-- C6: for every well-formed trigger timestamp the computed delay equals
max of the trigger time minus now and zero; a trigger at or before now gives
exactly zero; and the result is never a negative value. -/
theorem c6_delay_nonneg (js_date_parse : String → Option Int) (now t : Int)
    (s : String) (h : js_date_parse s = some t) :
    calculate_delay_ms js_date_parse now s = JsNum.val (max (t - now) 0) ∧
    (t ≤ now → calculate_delay_ms js_date_parse now s = JsNum.val 0) ∧
    (∀ d : Int, calculate_delay_ms js_date_parse now s = JsNum.val d → 0 ≤ d) := by
  have h1 : calculate_delay_ms js_date_parse now s = JsNum.val (max (t - now) 0) := by
    simp [calculate_delay_ms, date_get_time, js_sub, js_max_zero, h]
  refine ⟨h1, ?_, ?_⟩
  · intro hle
    rw [h1]
    have hz : max (t - now) 0 = 0 := max_eq_right (by omega)
    rw [hz]
  · intro d hd
    rw [h1] at hd
    injection hd with hv
    have hge : (0 : Int) ≤ max (t - now) 0 := le_max_right _ _
    rw [hv] at hge
    exact hge

/-- C6 witness: a concrete past-due trigger yields exactly zero delay. -/
theorem c6_delay_nonneg_witness :
    calculate_delay_ms (fun _ => some 3) 5 "2020-01-01T00:00:00.000Z" =
      JsNum.val 0 :=
  (c6_delay_nonneg (fun _ => some 3) 5 3 "2020-01-01T00:00:00.000Z" rfl).2.1
    (by decide)

/-- C5 counterexample: the claim as stated fails at concrete inputs. A task
whose title itself contains the characters of the due marker and has no due
timestamp yields an output containing the marker, and a task whose due
timestamp is the empty string, which JavaScript treats as falsy, yields an
output that differs from the claimed format with its non-empty due suffix. -/
theorem c5_counterexample_title_contains_marker :
    str_contains
      (build_message_text (fun s => s) "Done."
        { task_id := "t9"
          user_id := "u9"
          title := "pay rent (due soon)"
          due_at_iso := none
          priority := none
          category := none
          status := "pending"
          reminder_channel := "line"
          created_at_iso := "2025-01-01T00:00:00.000Z"
          updated_at_iso := "2025-01-01T00:00:00.000Z" })
      "(due" ∧
    build_message_text (fun s => s) "Done." empty_due_task ≠
      "Reminder: " ++ empty_due_task.title ++
        spec_due_suffix (fun s => s) empty_due_task ++ ". " ++ "Done." := by
  exact ⟨by decide, by decide⟩

/-- C5 (amended): for every task, the output of build_message_text equals
the specified format with the specified due suffix whenever the due
timestamp, when present, is non-empty (an empty due string is falsy in
JavaScript and suppresses the suffix; the shared schema's datetime
constraint rules it out); the closing phrase and the title occur as exact
substrings unconditionally; and when the task has no due timestamp and
neither the title nor the closing phrase itself contains the due marker,
the output contains no due marker substring. -/
theorem c5_build_message_text_format (fmt : String → String) (closing : String)
    (t : TaskPayload) :
    (t.due_at_iso ≠ some "" →
      build_message_text fmt closing t =
        "Reminder: " ++ t.title ++ spec_due_suffix fmt t ++ ". " ++ closing) ∧
    str_contains (build_message_text fmt closing t) closing ∧
    str_contains (build_message_text fmt closing t) t.title ∧
    (t.due_at_iso = none → ¬ str_contains t.title "(due" →
      ¬ str_contains closing "(due" →
      ¬ str_contains (build_message_text fmt closing t) "(due") := by
  cases hdo : t.due_at_iso with
  | none =>
    have hmsg : build_message_text fmt closing t =
        "Reminder: " ++ t.title ++ "" ++ ". " ++ closing := by
      simp [build_message_text, hdo]
    refine ⟨?_, ?_, ?_, ?_⟩
    · intro _
      rw [hmsg]
      simp [spec_due_suffix, hdo]
    · rw [str_contains, hmsg]
      refine ⟨("Reminder: " ++ t.title ++ "" ++ ". ").data, [], ?_⟩
      simp [String.data_append]
    · rw [str_contains, hmsg]
      refine ⟨"Reminder: ".data, ("" ++ ". " ++ closing).data, ?_⟩
      simp [String.data_append]
    · intro _ htitle hclosing hcon
      rw [str_contains, hmsg] at hcon
      have hnil : ("" : String).data = [] := rfl
      simp only [String.data_append, hnil, List.append_nil,
        List.append_assoc] at hcon
      exact no_due_marker_in_concat t.title.data closing.data
        htitle hclosing hcon
  | some s =>
    by_cases hs : s = ""
    · have hmsg : build_message_text fmt closing t =
          "Reminder: " ++ t.title ++ "" ++ ". " ++ closing := by
        simp [build_message_text, hdo, hs]
      refine ⟨?_, ?_, ?_, ?_⟩
      · intro hdue
        exact absurd (show (some s : Option String) = some "" by rw [hs]) hdue
      · rw [str_contains, hmsg]
        refine ⟨("Reminder: " ++ t.title ++ "" ++ ". ").data, [], ?_⟩
        simp [String.data_append]
      · rw [str_contains, hmsg]
        refine ⟨"Reminder: ".data, ("" ++ ". " ++ closing).data, ?_⟩
        simp [String.data_append]
      · intro h0
        exact absurd h0 (by simp)
    · have hmsg : build_message_text fmt closing t =
          "Reminder: " ++ t.title ++ (" (due " ++ fmt s ++ ")") ++ ". " ++ closing := by
        simp [build_message_text, hdo, hs]
      refine ⟨?_, ?_, ?_, ?_⟩
      · intro _
        rw [hmsg]
        simp [spec_due_suffix, hdo]
      · rw [str_contains, hmsg]
        refine ⟨("Reminder: " ++ t.title ++ (" (due " ++ fmt s ++ ")") ++ ". ").data,
          [], ?_⟩
        simp [String.data_append]
      · rw [str_contains, hmsg]
        refine ⟨"Reminder: ".data,
          ((" (due " ++ fmt s ++ ")") ++ ". " ++ closing).data, ?_⟩
        simp [String.data_append]
      · intro h0
        exact absurd h0 (by simp)

/-- C5 witness: the amended statement applied at two concrete tasks,
discharging every hypothesis: the sample task with its non-empty due
timestamp for the format equality, and the same task stripped of its due
timestamp for the no-marker clause. -/
theorem c5_build_message_text_format_witness :
    (build_message_text (fun s => s) "Done." sample_task =
      "Reminder: " ++ sample_task.title ++
        spec_due_suffix (fun s => s) sample_task ++ ". " ++ "Done.") ∧
    ¬ str_contains
        (build_message_text (fun s => s) "Done." sample_task_no_due) "(due" :=
  ⟨(c5_build_message_text_format (fun s => s) "Done." sample_task).1
      (by decide),
    (c5_build_message_text_format (fun s => s) "Done." sample_task_no_due).2.2.2
      rfl (by decide) (by decide)⟩

/-- C9: for one push call consumed from the client script, exactly one
request is sent and the script advances by one (no retry); a non-success
status becomes a thrown error carrying that status; a transport rejection
propagates to the caller unmodified. -/
theorem c9_dispatch_failure_propagation (fmt : String → String)
    (closing : String) (t : TaskPayload) (o : HttpOutcome)
    (rest : List HttpOutcome) :
    (dispatch_task_reminder fmt closing t (o :: rest)).2.1 =
      [build_push_message_payload fmt closing t] ∧
    (dispatch_task_reminder fmt closing t (o :: rest)).2.2 = rest ∧
    (∀ st, o = HttpOutcome.response st → response_ok st = false →
      (dispatch_task_reminder fmt closing t (o :: rest)).1 =
        Except.error (DispatchError.push_failed_status st)) ∧
    (∀ m, o = HttpOutcome.transport_error m →
      (dispatch_task_reminder fmt closing t (o :: rest)).1 =
        Except.error (DispatchError.transport m)) := by
  cases o with
  | response st =>
    by_cases hok : response_ok st
    · refine ⟨by simp [dispatch_task_reminder, hok],
        by simp [dispatch_task_reminder, hok], ?_, ?_⟩
      · intro st' hst hbad
        injection hst with h1
        subst h1
        rw [hok] at hbad
        cases hbad
      · intro m hm
        exact HttpOutcome.noConfusion hm
    · refine ⟨by simp [dispatch_task_reminder, hok],
        by simp [dispatch_task_reminder, hok], ?_, ?_⟩
      · intro st' hst _
        injection hst with h1
        subst h1
        simp [dispatch_task_reminder, hok]
      · intro m hm
        exact HttpOutcome.noConfusion hm
  | transport_error m =>
    refine ⟨by simp [dispatch_task_reminder],
      by simp [dispatch_task_reminder], ?_, ?_⟩
    · intro st hst _
      exact HttpOutcome.noConfusion hst
    · intro m' hm
      injection hm with h1
      subst h1
      simp [dispatch_task_reminder]

/-- C9 witness: a concrete 500 response produces the thrown error carrying
the status code. -/
theorem c9_dispatch_failure_propagation_witness :
    (dispatch_task_reminder (fun s => s) "Done." sample_task
      (HttpOutcome.response 500 :: [])).1 =
      Except.error (DispatchError.push_failed_status 500) :=
  (c9_dispatch_failure_propagation (fun s => s) "Done." sample_task
    (HttpOutcome.response 500) []).2.2.1 500 rfl (by decide)

/-- C2: when the durable backend fails to reach ready state during the first
initialization (the readiness oracle reports failure while a durable queue
exists), enabling the offline fallback makes the call resolve with the
durable resources discarded and the mode in-memory, while disabling it makes
the call throw the failure to the caller. -/
theorem c2_initialize_fallback (s : SchedulerState)
    (hm : s.scheduler_mode = SchedulerMode.bullmq)
    (hi : s.initialized = false)
    (hq : s.queue_present = true) :
    (s.enable_offline_fallback = true →
      ∃ s', initialize_scheduler false s = Except.ok s' ∧
        s'.scheduler_mode = SchedulerMode.in_memory ∧
        s'.queue_present = false ∧ s'.worker_present = false ∧
        s'.initialized = true) ∧
    (s.enable_offline_fallback = false →
      initialize_scheduler false s = Except.error
        SchedulerError.initialization_failed) := by
  have hmne : ¬ s.scheduler_mode = SchedulerMode.in_memory := by
    rw [hm]
    intro hh
    cases hh
  have hready : ((s.queue_present || s.worker_present) && !false) = true := by
    simp [hq]
  constructor
  · intro he
    refine ⟨{ switch_to_in_memory_mode s with initialized := true },
      ?_, rfl, rfl, rfl, rfl⟩
    rw [initialize_scheduler, if_neg (by simp [hi]), if_neg hmne,
      if_pos hready, if_pos he]
  · intro he
    rw [initialize_scheduler, if_neg (by simp [hi]), if_neg hmne,
      if_pos hready, if_neg (by simp [he])]

/-- C2 witness: the fallback branch evaluated at a concrete durable-mode
state with the fallback flag enabled. -/
theorem c2_initialize_fallback_witness :
    ∃ s', initialize_scheduler false sample_bullmq_fallback_state =
        Except.ok s' ∧
      s'.scheduler_mode = SchedulerMode.in_memory ∧
      s'.queue_present = false ∧ s'.worker_present = false ∧
      s'.initialized = true :=
  (c2_initialize_fallback sample_bullmq_fallback_state rfl rfl rfl).1 rfl

/-- C7: when the queue and worker fields are defined whenever the mode is
durable, cancelling an absent task identifier returns false, throws nothing
and leaves the state unchanged, while cancelling a present one removes the
entries under that identifier, touches no other identifier and returns
true. -/
theorem c7_cancel_contract (s : SchedulerState) (tid : String)
    (hinv : mode_resources_defined s) :
    (entry_count s tid = 0 →
      cancel_reminder s tid = Except.ok (false, s)) ∧
    (entry_count s tid ≠ 0 →
      ∃ s', cancel_reminder s tid = Except.ok (true, s') ∧
        s'.scheduler_mode = s.scheduler_mode ∧
        entry_count s' tid = 0 ∧
        ∀ k, k ≠ tid → entry_count s' k = entry_count s k) := by
  constructor
  · exact cancel_reminder_absent s tid hinv
  · intro hc
    obtain ⟨s', h1, h2, _, _, h5, h6⟩ := cancel_reminder_present s tid hinv hc
    exact ⟨s', h1, h2, h5, h6⟩

/-- C7 witness: cancelling on a concrete empty in-memory state returns false
and preserves the state. -/
theorem c7_cancel_contract_witness :
    cancel_reminder sample_mem_state "t1" =
      Except.ok (false, sample_mem_state) :=
  (c7_cancel_contract sample_mem_state "t1" (fun h => nomatch h)).1 rfl

/-- C1: for every nonempty run of consecutive schedule_reminder calls that
share a task identifier, exactly one entry for that identifier remains in
the mode-appropriate store; a first cancel_reminder then returns true and a
second returns false. -/
theorem c1_at_most_one_pending (s : SchedulerState) (tid : String)
    (reqs : List ReminderRequest) (hinv : mode_resources_defined s)
    (hne : reqs ≠ []) (hall : ∀ r ∈ reqs, r.task.task_id = tid) :
    ∃ s1 s2, run_schedules s reqs = Except.ok s1 ∧
      entry_count s1 tid = 1 ∧
      cancel_reminder s1 tid = Except.ok (true, s2) ∧
      cancel_reminder s2 tid = Except.ok (false, s2) := by
  obtain ⟨s1, h1, hinv1, hmode1, hcount1⟩ :=
    run_schedules_post tid reqs s hinv hne hall
  obtain ⟨s2, h2, hm2, hq2, hw2, hz2, _⟩ :=
    cancel_reminder_present s1 tid hinv1 (by rw [hcount1]; exact one_ne_zero)
  have hinv2 : mode_resources_defined s2 := by
    intro hb
    rw [hm2] at hb
    exact ⟨hq2.trans (hinv1 hb).1, hw2.trans (hinv1 hb).2⟩
  have h3 := cancel_reminder_absent s2 tid hinv2 hz2
  exact ⟨s1, s2, h1, hcount1, h2, h3⟩

/-- C1 witness: scheduling the sample request twice on a concrete in-memory
state leaves one entry; cancel returns true, then false. -/
theorem c1_at_most_one_pending_witness :
    ∃ s1 s2,
      run_schedules sample_mem_state [sample_request, sample_request] =
        Except.ok s1 ∧
      entry_count s1 "t1" = 1 ∧
      cancel_reminder s1 "t1" = Except.ok (true, s2) ∧
      cancel_reminder s2 "t1" = Except.ok (false, s2) :=
  c1_at_most_one_pending sample_mem_state "t1" [sample_request, sample_request]
    (fun h => nomatch h) (by simp)
    (by
      intro r hr
      simp at hr
      rw [hr]
      rfl)

/-- C8: the mode never leaves in-memory over any sequence of operations, a
single step only reaches durable mode from durable mode, and the fallback
transition lands in in-memory mode with an empty timer table. -/
theorem c8_mode_one_way (s : SchedulerState) (ops : List SchedulerOp)
    (op : SchedulerOp) :
    (s.scheduler_mode = SchedulerMode.in_memory →
      (run s ops).scheduler_mode = SchedulerMode.in_memory) ∧
    ((step s op).scheduler_mode = SchedulerMode.bullmq →
      s.scheduler_mode = SchedulerMode.bullmq) ∧
    (switch_to_in_memory_mode s).scheduler_mode = SchedulerMode.in_memory ∧
    (switch_to_in_memory_mode s).active_timers = [] := by
  refine ⟨fun h => run_preserves_in_memory ops s h, ?_, rfl, rfl⟩
  intro hb
  cases hsm : s.scheduler_mode with
  | bullmq => rfl
  | in_memory =>
    rw [step_mode_one_way s op hsm] at hb
    exact hb

/-- C8 witness: after a shutdown on a concrete in-memory state the mode is
still in-memory. -/
theorem c8_mode_one_way_witness :
    (run sample_mem_state [SchedulerOp.op_shutdown]).scheduler_mode =
      SchedulerMode.in_memory :=
  (c8_mode_one_way sample_mem_state [SchedulerOp.op_shutdown]
    SchedulerOp.op_shutdown).1 rfl

/-- C10: every state reachable from a successful construction keeps the
queue and worker fields defined while the mode is durable, so the queue-not-
initialized error branches of schedule_reminder and cancel_reminder are
unreachable. -/
theorem c10_queue_error_unreachable (deps : SchedulerDependencies) (cok : Bool)
    (s0 : SchedulerState) (ops : List SchedulerOp) (req : ReminderRequest)
    (tid : String) (h : mk_scheduler deps cok = Except.ok s0) :
    mode_resources_defined (run s0 ops) ∧
    schedule_reminder (run s0 ops) req ≠
      Except.error SchedulerError.queue_not_initialized ∧
    cancel_reminder (run s0 ops) tid ≠
      Except.error SchedulerError.queue_not_initialized := by
  have hinv := run_preserves_inv ops s0 (mk_scheduler_inv deps cok s0 h)
  refine ⟨hinv, ?_, ?_⟩
  · obtain ⟨s', hs', _⟩ := schedule_reminder_ok (run s0 ops) req hinv
    rw [hs']
    exact fun hh => Except.noConfusion hh
  · obtain ⟨b, s', hs', _⟩ := cancel_reminder_clears (run s0 ops) tid hinv
    rw [hs']
    exact fun hh => Except.noConfusion hh

/-- C10 witness: the invariant evaluated on the state constructed from
default dependencies with a successful construction and no further
operations. -/
theorem c10_queue_error_unreachable_witness :
    mode_resources_defined (run sample_bullmq_state []) ∧
    schedule_reminder (run sample_bullmq_state []) sample_request ≠
      Except.error SchedulerError.queue_not_initialized ∧
    cancel_reminder (run sample_bullmq_state []) "t1" ≠
      Except.error SchedulerError.queue_not_initialized :=
  c10_queue_error_unreachable ⟨none, none, none⟩
    true sample_bullmq_state [] sample_request "t1" rfl

/-- C3: evaluation of the in-memory path at a concrete input. After
schedule_reminder arms the timer for the sample task and the timer fires,
the dispatcher has been invoked, but the firing callback leaves the entry in
the timer table, so a subsequent cancel_reminder returns true where the
claim requires false. -/
theorem c3_fired_timer_entry_not_removed :
    schedule_reminder sample_mem_state sample_request =
      Except.ok { sample_mem_state with
        active_timers := [("t1", sample_request)] } ∧
    (fire_timer { sample_mem_state with
        active_timers := [("t1", sample_request)] } "t1").dispatch_log =
      ["t1"] ∧
    table_get (fire_timer { sample_mem_state with
        active_timers := [("t1", sample_request)] } "t1").active_timers "t1" =
      some sample_request ∧
    cancel_reminder (fire_timer { sample_mem_state with
        active_timers := [("t1", sample_request)] } "t1") "t1" =
      Except.ok (true, { sample_mem_state with dispatch_log := ["t1"] }) := by
  exact ⟨rfl, rfl, rfl, rfl⟩
